import Mathlib

/-!
Verification of the wasmvm API service (`vms/wasmvm/service.go`).

The Go service accepts untyped JSON requests, validates and coerces them,
builds transactions through external collaborators, and admits them to a
shared mempool.  We embed the service shallowly: the dynamic `interface\x7b\x7d`
wire values become the inductive `GoValue`; machine integers become `Int`
with explicit two's-complement wrapping; the external collaborators
(key factory, VM transaction builders, JSON encoder, CB58 codec) become
explicit function parameters gathered in `Collab`; each service call
returns its result, the new VM state, and a trace of collaborator events.

Error messages follow the Go source text, with every ASCII apostrophe of
the Go text elided (the quotes around field names, and the one in the
word that we render as "couldnt").
-/

/-- A dynamically-typed Go value as it can appear behind `interface\x7b\x7d`
after JSON decoding, extended with the extra numeric runtime types that
`toFnArg` inspects (`int32`, `int64`, `float32`, `float64`).  Float values
are carried as the rational number they denote. -/
inductive GoValue : Type where
  | goNil : GoValue
  | goBool (b : Bool) : GoValue
  | goInt32 (n : Int) : GoValue
  | goInt64 (n : Int) : GoValue
  | goFloat32 (q : ℚ) : GoValue
  | goFloat64 (q : ℚ) : GoValue
  | goString (s : String) : GoValue
  | goArray (elems : List GoValue) : GoValue
  | goObject (fields : List (String × GoValue)) : GoValue

/-- Two's-complement wrap of an integer into the signed 32-bit range,
the effect of Go's narrowing conversion `int32(x)` on integer `x`. -/
def wrap32 (n : Int) : Int := (n + 2 ^ 31) % 2 ^ 32 - 2 ^ 31

/-- Two's-complement wrap of an integer into the signed 64-bit range,
the effect of Go's conversion `int64(x)` on integer `x`. -/
def wrap64 (n : Int) : Int := (n + 2 ^ 63) % 2 ^ 64 - 2 ^ 63

/-- Truncation of a rational toward zero, the fraction-discarding step of
Go's float-to-integer conversions. -/
def ratTrunc (q : ℚ) : Int := if 0 ≤ q then Int.floor q else -Int.floor (-q)

/-- The implementation-dependent outcomes that the Go specification leaves
open: a non-constant float-to-integer conversion whose truncated value does
not fit the target type succeeds with an implementation-dependent result.
We model that freedom as an explicit oracle. -/
structure GoImpl : Type where
  oobToInt32 : ℚ → Int
  oobToInt64 : ℚ → Int

/-- Go conversion `int32(x)` for a float `x` denoting the rational `q`:
truncation toward zero when the truncated value is representable,
the implementation-dependent result otherwise. -/
def goFloatToInt32 (impl : GoImpl) (q : ℚ) : Int :=
  if -2 ^ 31 ≤ ratTrunc q ∧ ratTrunc q < 2 ^ 31 then ratTrunc q else impl.oobToInt32 q

/-- Go conversion `int64(x)` for a float `x` denoting the rational `q`. -/
def goFloatToInt64 (impl : GoImpl) (q : ℚ) : Int :=
  if -2 ^ 63 ≤ ratTrunc q ∧ ratTrunc q < 2 ^ 63 then ratTrunc q else impl.oobToInt64 q

/-- The result of `toFnArg`: a Go `interface\x7b\x7d` holding either an
`int32` or an `int64`. -/
inductive FnArg : Type where
  | i32 (n : Int) : FnArg
  | i64 (n : Int) : FnArg
deriving DecidableEq

/-- Rendering of a rational, standing in for Go's textual formatting of the
float values (the exact digits are irrelevant to the service logic). -/
def ratShow (q : ℚ) : String := toString q.num ++ "/" ++ toString q.den

/-- Model of Go's default formatting verb applied to a dynamic value, used
by the error messages of the service. -/
def goShow : GoValue → String
  | .goNil => "<nil>"
  | .goBool true => "true"
  | .goBool false => "false"
  | .goInt32 n => toString n
  | .goInt64 n => toString n
  | .goFloat32 q => ratShow q
  | .goFloat64 q => ratShow q
  | .goString s => s
  | .goArray l => "[" ++ String.intercalate " " (l.attach.map (fun x => goShow x.1)) ++ "]"
  | .goObject f =>
      "map[" ++ String.intercalate " "
        (f.attach.map (fun p => p.1.1 ++ ":" ++ goShow p.1.2)) ++ "]"
decreasing_by
  · have h := List.sizeOf_lt_of_mem x.2
    simp [GoValue.goArray.sizeOf_spec]
    omega
  · have h := List.sizeOf_lt_of_mem p.2
    have h2 : sizeOf p.1.2 < sizeOf p.1 := by cases p.1; simp
    simp [GoValue.goObject.sizeOf_spec]
    omega

/-- `ArgAPI`: the API representation of a function argument, a declared
type tag together with a dynamic value. -/
structure ArgAPI : Type where
  type : String
  value : GoValue

/-- Model of Go's `%+v` rendering of an `ArgAPI` struct. -/
def argShow (a : ArgAPI) : String :=
  "\x7bType:" ++ a.type ++ " Value:" ++ goShow a.value ++ "\x7d"

/-- The code point of a character after ASCII lowering (model of the
effect of `strings.ToLower` on the ASCII type tags compared here). -/
def charLowerNat (c : Char) : Nat :=
  if 65 ≤ c.toNat ∧ c.toNat ≤ 90 then c.toNat + 32 else c.toNat

/-- The code points of a string after ASCII lowering. -/
def lowerBytes (s : String) : List Nat := s.data.map charLowerNat

/-- The bytes of a string (model of the Go `[]byte` view of a string). -/
def strBytes (s : String) : List Nat := s.data.map Char.toNat

/-- `ArgAPI.toFnArg`: coerce the dynamic value to the declared fixed-width
integer type.  The tag is lowered before matching; each numeric runtime
type is accepted through the corresponding Go conversion; any other value,
or an unrecognized tag, is an error. -/
def ArgAPI.toFnArg (impl : GoImpl) (arg : ArgAPI) : Except String FnArg :=
  if lowerBytes arg.type = strBytes "int32" then
    match arg.value with
    | .goInt32 n => .ok (.i32 n)
    | .goInt64 n => .ok (.i32 (wrap32 n))
    | .goFloat32 q => .ok (.i32 (goFloatToInt32 impl q))
    | .goFloat64 q => .ok (.i32 (goFloatToInt32 impl q))
    | v => .error ("value " ++ goShow v ++ " is not convertible to int32")
  else if lowerBytes arg.type = strBytes "int64" then
    match arg.value with
    | .goInt32 n => .ok (.i64 n)
    | .goInt64 n => .ok (.i64 n)
    | .goFloat32 q => .ok (.i64 (goFloatToInt64 impl q))
    | .goFloat64 q => .ok (.i64 (goFloatToInt64 impl q))
    | v => .error ("value " ++ goShow v ++ " is not convertible to int64")
  else .error "arg type must be one of: int32, int64"

/-- Decidable prefix test on character lists (helper for reasoning about
the text of error messages). -/
def hasPre : List Char → List Char → Bool
  | [], _ => true
  | _ :: _, [] => false
  | a :: as, b :: bs => a == b && hasPre as bs

/-- Decidable substring test on character lists. -/
def hasSub (needle hay : List Char) : Bool :=
  match hay with
  | [] => hasPre needle []
  | _ :: t => hasPre needle hay || hasSub needle t

/-- `mentions msg frag`: the message `msg` contains the fragment `frag`. -/
def mentions (msg frag : String) : Bool := hasSub frag.data msg.data

/-- The all-zero 32-byte identifier `ids.Empty`. -/
def idEmpty : List Nat := List.replicate 32 0

/-- Rendering of an identifier, standing in for the textual form of
`ids.ID` used in the `GetTx` error message. -/
def idShow (id : List Nat) : String :=
  String.intercalate " " (id.map toString)

/-- Modelled from the spec: the value returned by the external key factory
`keyFactory.ToPrivateKey` is some implementation of the `crypto.PrivateKey`
interface, which may or may not be the expected concrete
`*crypto.PrivateKeySECP256K1R` scheme. -/
inductive PrivKeyIntf : Type where
  | secp (key : List Nat) : PrivKeyIntf
  | other (desc : String) : PrivKeyIntf
deriving DecidableEq

/-- A built transaction: an identifier-bearing unit of work produced by the
external VM builder (`newInvokeTx` / `newCreateContractTx`). -/
structure Tx : Type where
  txID : List Nat
deriving DecidableEq

/-- Modelled from the spec: the external collaborators of the service, made
explicit parameters: the key factory, the two VM transaction builders, the
JSON encoder `encjson.Marshal`, and the CB58 codec `CB58.FromString` (the
spec treats the codec and the cryptography as out-of-scope primitives). -/
structure Collab : Type where
  toPrivateKey : List Nat → Except String PrivKeyIntf
  newInvokeTx : List Nat → String → List FnArg → List Nat → Nat → List Nat → Except String Tx
  newCreateContractTx : List Nat → Nat → List Nat → Except String Tx
  jsonMarshal : GoValue → Except String (List Nat)
  cb58FromString : String → Except String (List Nat)

/-- Trace events recording each call the service makes to an external
collaborator, in order. -/
inductive Event : Type where
  | toPrivateKeyCall (bytes : List Nat) : Event
  | newInvokeTxCall : Event
  | newCreateContractTxCall : Event
  | notifyBlockReady : Event
deriving DecidableEq

/-- The VM state shared by all requests: the mempool, an ordered sequence
of admitted transactions. -/
structure VMState : Type where
  mempool : List Tx
deriving DecidableEq

/-- Outcome of one service call: the response or error, the VM state after
the call, and the trace of collaborator calls made. -/
structure SvcOut (α : Type) : Type where
  result : Except String α
  state : VMState
  events : List Event

/-- `InvokeArgs`: the request body of `Invoke`.  `senderKey` holds the
decoded bytes of the CB58 field; `byteArgs` is the dynamic JSON value. -/
structure InvokeArgs : Type where
  contractID : List Nat
  function : String
  senderKey : List Nat
  senderNonce : Nat
  args : List ArgAPI
  byteArgs : GoValue

/-- `InvokeArgs.validate`: the Go switch returning the first violated
field check, or none when all pass. -/
def InvokeArgs.validate (args : InvokeArgs) : Option String :=
  if args.senderKey = [] then some "argument senderKey not provided"
  else if args.senderNonce = 0 then some "senderNonce must be at least 1"
  else if args.contractID = idEmpty then some "contractID not specified"
  else if args.function = "" then some "function not specified"
  else none

/-- The fixed error text `errBagByteArgs`. -/
def errBagByteArgs : String :=
  "expected byteArgs to be JSON or base58 formatted bytes but was neither"

/-- `InvokeArgs.getByteArgs`: resolve the dynamic `byteArgs` field.  A nil
value is the empty byte slice; a top-level array or object is marshalled
back to JSON bytes; otherwise the value must be a string and is decoded by
the CB58 codec; anything else is an error. -/
def InvokeArgs.getByteArgs (c : Collab) (args : InvokeArgs) : Except String (List Nat) :=
  match args.byteArgs with
  | .goNil => .ok []
  | .goArray l =>
    match c.jsonMarshal (.goArray l) with
    | .ok bytes => .ok bytes
    | .error _ => .error errBagByteArgs
  | .goObject f =>
    match c.jsonMarshal (.goObject f) with
    | .ok bytes => .ok bytes
    | .error _ => .error errBagByteArgs
  | .goString s =>
    match c.cb58FromString s with
    | .ok bytes => .ok bytes
    | .error _ => .error errBagByteArgs
  | _ => .error errBagByteArgs

/-- The argument-coercion loop of `Invoke`: apply `toFnArg` to each element
in order, stopping at the first failure with the wrapping message of the
source. -/
def coerceArgs (impl : GoImpl) : List ArgAPI → Except String (List FnArg)
  | [] => .ok []
  | a :: rest =>
    match a.toFnArg impl with
    | .error e => .error ("couldnt parse arg " ++ argShow a ++ ": " ++ e)
    | .ok fa =>
      match coerceArgs impl rest with
      | .error e => .error e
      | .ok fs => .ok (fa :: fs)

/-- The mempool append of the source (`vm.mempool = append(vm.mempool, tx)`),
taken as one atomic admission step. -/
def admitTx (s : VMState) (tx : Tx) : VMState :=
  { mempool := s.mempool ++ [tx] }

/-- `Service.Invoke`: validate, coerce the integer arguments, resolve the
byte arguments, parse the sender key, build the transaction, then admit it
to the mempool and notify the scheduler. -/
def serviceInvoke (c : Collab) (impl : GoImpl) (s : VMState) (args : InvokeArgs) :
    SvcOut (List Nat) :=
  match args.validate with
  | some e => ⟨.error ("arguments failed validation: " ++ e), s, []⟩
  | none =>
    match coerceArgs impl args.args with
    | .error e => ⟨.error e, s, []⟩
    | .ok fnArgs =>
      match args.getByteArgs c with
      | .error e => ⟨.error ("couldnt parse byteArgs: " ++ e), s, []⟩
      | .ok byteArgs =>
        match c.toPrivateKey args.senderKey with
        | .error e =>
          ⟨.error ("couldnt parse privateKey to a SECP256K1R private key: " ++ e), s,
            [.toPrivateKeyCall args.senderKey]⟩
        | .ok (.other _) =>
          ⟨.error "couldnt parse privateKey to a SECP256K1R private key: <nil>", s,
            [.toPrivateKeyCall args.senderKey]⟩
        | .ok (.secp senderKey) =>
          match c.newInvokeTx args.contractID args.function fnArgs byteArgs
              args.senderNonce senderKey with
          | .error e =>
            ⟨.error ("couldnt create tx: " ++ e), s,
              [.toPrivateKeyCall args.senderKey, .newInvokeTxCall]⟩
          | .ok tx =>
            ⟨.ok tx.txID, admitTx s tx,
              [.toPrivateKeyCall args.senderKey, .newInvokeTxCall, .notifyBlockReady]⟩

/-- `CreateContractArgs`: the request body of `CreateContract`, with the
CB58 fields already decoded to bytes. -/
structure CreateContractArgs : Type where
  contract : List Nat
  senderKey : List Nat
  senderNonce : Nat

/-- `Service.CreateContract`: inline validation, key parsing, transaction
build, then admission and scheduler notification. -/
def serviceCreateContract (c : Collab) (s : VMState) (args : CreateContractArgs) :
    SvcOut (List Nat) :=
  if args.senderKey = [] then ⟨.error "argument senderKey not given", s, []⟩
  else if args.contract = [] then ⟨.error "argument contract not given", s, []⟩
  else if args.senderNonce = 0 then ⟨.error "argument senderNonce must be at least 1", s, []⟩
  else
    match c.toPrivateKey args.senderKey with
    | .error e =>
      ⟨.error ("couldnt parse senderKey to a SECP256K1R private key: " ++ e), s,
        [.toPrivateKeyCall args.senderKey]⟩
    | .ok (.other _) =>
      ⟨.error "couldnt parse senderKey to a SECP256K1R private key: <nil>", s,
        [.toPrivateKeyCall args.senderKey]⟩
    | .ok (.secp senderKey) =>
      match c.newCreateContractTx args.contract args.senderNonce senderKey with
      | .error e =>
        ⟨.error ("couldnt create tx: " ++ e), s,
          [.toPrivateKeyCall args.senderKey, .newCreateContractTxCall]⟩
      | .ok tx =>
        ⟨.ok tx.txID, admitTx s tx,
          [.toPrivateKeyCall args.senderKey, .newCreateContractTxCall, .notifyBlockReady]⟩

/-- Modelled from the spec: the persistent transaction store read by
`vm.getTx`, holding each stored transaction keyed by an identifier. -/
structure TxStore : Type where
  entries : List (List Nat × Tx)

/-- Modelled from the spec: lookup in the persistent store by identifier. -/
def storeGet (st : TxStore) (id : List Nat) : Option Tx :=
  (st.entries.find? (fun p => p.1 = id)).map Prod.snd

/-- Modelled from the spec: transactions are persisted keyed by their own
identifier, so the store built from the admitted transactions maps
`tx.ID()` to `tx`. -/
def storeOfAdmitted (txs : List Tx) : TxStore :=
  ⟨txs.map (fun t => (t.txID, t))⟩

/-- `Service.GetTx`: read-only lookup; a miss is reported with the
not-found message of the source. -/
def serviceGetTx (st : TxStore) (id : List Nat) : Except String Tx :=
  match storeGet st id with
  | none => .error ("couldnt find tx with ID " ++ idShow id)
  | some tx => .ok tx

/-- Modelled from the spec: admissions of concurrent requests are
serialized by the service handler lock, so an interleaving of N admissions
is a sequence of atomic `admitTx` steps in some completion order. -/
def runAdmits (s : VMState) (order : List Tx) : VMState :=
  order.foldl admitTx s

/-- A list is a prefix of itself followed by anything. -/
theorem hasPre_self_append (n post : List Char) : hasPre n (n ++ post) = true := by
  induction n with
  | nil => rfl
  | cons a as ih => simp [hasPre, ih]

/-- Substring test succeeds on a cons when it succeeds on the tail. -/
theorem hasSub_cons_of_tail (n t : List Char) (c : Char) (h : hasSub n t = true) :
    hasSub n (c :: t) = true := by
  simp [hasSub, h]

/-- A prefix is in particular a substring. -/
theorem hasSub_of_hasPre (n h : List Char) (hp : hasPre n h = true) : hasSub n h = true := by
  cases h with
  | nil => simpa [hasSub] using hp
  | cons c t => simp [hasSub, hp]

/-- The needle occurs in any list that embeds it between a prefix and a
suffix. -/
theorem hasSub_embed (pre n post : List Char) : hasSub n (pre ++ (n ++ post)) = true := by
  induction pre with
  | nil => exact hasSub_of_hasPre n (n ++ post) (hasPre_self_append n post)
  | cons c t ih => simpa using hasSub_cons_of_tail n (t ++ (n ++ post)) c ih

/-- A string built as `a ++ s ++ b` mentions `s`. -/
theorem mentions_embed (a s b : String) : mentions (a ++ s ++ b) s = true := by
  have h : (a ++ s ++ b).data = a.data ++ (s.data ++ b.data) := by
    simp [String.data_append]
  simp only [mentions, h]
  exact hasSub_embed a.data s.data b.data

/-- Whether a dynamic value is one of the four numeric runtime types that
`toFnArg` can convert. -/
def isNumericVal : GoValue → Bool
  | .goInt32 _ => true
  | .goInt64 _ => true
  | .goFloat32 _ => true
  | .goFloat64 _ => true
  | _ => false

/-- C1: `getByteArgs` resolves the `byteArgs` field by a fixed case
analysis: a nil value yields the empty byte slice without error; a
top-level array or object yields the bytes of its JSON serialization and
the outcome never depends on the CB58 codec (it is not routed to the
text-codec branch); a string is decoded through the CB58 codec; any value
of another form yields the `errBagByteArgs` error rather than a default. -/
theorem claim_C1_getByteArgs_resolution (c : Collab) (args : InvokeArgs) :
    (args.byteArgs = .goNil → args.getByteArgs c = .ok []) ∧
    (∀ l bs, args.byteArgs = .goArray l → c.jsonMarshal (.goArray l) = .ok bs →
      args.getByteArgs c = .ok bs) ∧
    (∀ f bs, args.byteArgs = .goObject f → c.jsonMarshal (.goObject f) = .ok bs →
      args.getByteArgs c = .ok bs) ∧
    (∀ g, (∀ s, args.byteArgs ≠ .goString s) →
      args.getByteArgs { c with cb58FromString := g } = args.getByteArgs c) ∧
    (∀ s bs, args.byteArgs = .goString s → c.cb58FromString s = .ok bs →
      args.getByteArgs c = .ok bs) ∧
    (∀ s e, args.byteArgs = .goString s → c.cb58FromString s = .error e →
      args.getByteArgs c = .error errBagByteArgs) ∧
    ((args.byteArgs ≠ .goNil) → (∀ l, args.byteArgs ≠ .goArray l) →
      (∀ f, args.byteArgs ≠ .goObject f) → (∀ s, args.byteArgs ≠ .goString s) →
      args.getByteArgs c = .error errBagByteArgs) := by
  refine ⟨?_, ?_, ?_, ?_, ?_, ?_, ?_⟩
  · intro h; simp [InvokeArgs.getByteArgs, h]
  · intro l bs h hm; simp [InvokeArgs.getByteArgs, h, hm]
  · intro f bs h hm; simp [InvokeArgs.getByteArgs, h, hm]
  · intro g hns
    cases hv : args.byteArgs with
    | goString s => exact absurd hv (hns s)
    | goNil => simp [InvokeArgs.getByteArgs, hv]
    | goBool b => simp [InvokeArgs.getByteArgs, hv]
    | goInt32 n => simp [InvokeArgs.getByteArgs, hv]
    | goInt64 n => simp [InvokeArgs.getByteArgs, hv]
    | goFloat32 q => simp [InvokeArgs.getByteArgs, hv]
    | goFloat64 q => simp [InvokeArgs.getByteArgs, hv]
    | goArray l => simp [InvokeArgs.getByteArgs, hv]
    | goObject f => simp [InvokeArgs.getByteArgs, hv]
  · intro s bs h hc; simp [InvokeArgs.getByteArgs, h, hc]
  · intro s e h hc; simp [InvokeArgs.getByteArgs, h, hc]
  · intro h1 h2 h3 h4
    cases hv : args.byteArgs with
    | goNil => exact absurd hv h1
    | goArray l => exact absurd hv (h2 l)
    | goObject f => exact absurd hv (h3 f)
    | goString s => exact absurd hv (h4 s)
    | goBool b => simp [InvokeArgs.getByteArgs, hv]
    | goInt32 n => simp [InvokeArgs.getByteArgs, hv]
    | goInt64 n => simp [InvokeArgs.getByteArgs, hv]
    | goFloat32 q => simp [InvokeArgs.getByteArgs, hv]
    | goFloat64 q => simp [InvokeArgs.getByteArgs, hv]

/-- A collaborator assignment used to instantiate theorems on concrete
inputs: the key factory accepts every byte sequence, the builders derive a
transaction identifier from their inputs, the JSON encoder returns fixed
bytes, the codec rejects every string. -/
def collabW : Collab where
  toPrivateKey := fun b => .ok (.secp b)
  newInvokeTx := fun cid _ _ _ nonce _ => .ok ⟨cid ++ [nonce]⟩
  newCreateContractTx := fun cb nonce _ => .ok ⟨cb ++ [nonce]⟩
  jsonMarshal := fun _ => .ok [91, 93]
  cb58FromString := fun _ => .error "invalid input"

/-- Witness for C1: on a request whose `byteArgs` is nil, resolution
returns the empty byte slice. -/
theorem claim_C1_witness :
    InvokeArgs.getByteArgs collabW
      ⟨idEmpty, "f", [9], 1, [], .goNil⟩ = .ok [] :=
  (claim_C1_getByteArgs_resolution collabW ⟨idEmpty, "f", [9], 1, [], .goNil⟩).1 rfl

/-- A string followed by a suffix mentions that suffix. -/
theorem mentions_suffix (a s : String) : mentions (a ++ s) s = true := by
  have h : (a ++ s).data = a.data ++ (s.data ++ []) := by
    simp [String.data_append]
  simp only [mentions, h]
  exact hasSub_embed a.data s.data []

/-- The conversion error message for tag int32 mentions the tag. -/
theorem mentions_tag32 (g : String) :
    mentions ("value " ++ g ++ " is not convertible to int32") "int32" = true := by
  have h : (" is not convertible to int32" : String) = " is not convertible to " ++ "int32" := rfl
  rw [h, ← String.append_assoc]
  exact mentions_suffix _ _

/-- The conversion error message for tag int64 mentions the tag. -/
theorem mentions_tag64 (g : String) :
    mentions ("value " ++ g ++ " is not convertible to int64") "int64" = true := by
  have h : (" is not convertible to int64" : String) = " is not convertible to " ++ "int64" := rfl
  rw [h, ← String.append_assoc]
  exact mentions_suffix _ _

/-- An oracle that resolves every out-of-range conversion to zero. -/
def implZ : GoImpl := ⟨fun _ => 0, fun _ => 0⟩

/-- An oracle reproducing the saturating behavior of common hardware
float-to-integer instructions, one legal resolution of the freedom the Go
language definition leaves for out-of-range conversions. -/
def implSat : GoImpl := ⟨fun _ => -(2 ^ 31), fun _ => -(2 ^ 63)⟩

/-- C4 (as amended): coercion of a `TypedArgument`.  Under a tag that
lowers to int32 or int64, each of the four numeric runtime types is
accepted (floats succeed unconditionally and are truncated toward zero
whenever the truncation is representable), while every non-numeric value
fails with a message naming the offending value and the declared type;
a tag lowering to neither accepted name fails with the fixed message
listing the accepted tags, which names neither the value nor the tag. -/
theorem claim_C4_toFnArg_coercion (impl : GoImpl) (a : ArgAPI) :
    (lowerBytes a.type = strBytes "int32" →
      (∀ n, a.value = .goInt32 n → a.toFnArg impl = .ok (.i32 n)) ∧
      (∀ n, a.value = .goInt64 n → a.toFnArg impl = .ok (.i32 (wrap32 n))) ∧
      (∀ q, a.value = .goFloat32 q ∨ a.value = .goFloat64 q →
        (∃ m, a.toFnArg impl = .ok (.i32 m)) ∧
        (-2 ^ 31 ≤ ratTrunc q → ratTrunc q < 2 ^ 31 →
          a.toFnArg impl = .ok (.i32 (ratTrunc q)))) ∧
      (isNumericVal a.value = false →
        a.toFnArg impl =
          .error ("value " ++ goShow a.value ++ " is not convertible to int32") ∧
        mentions ("value " ++ goShow a.value ++ " is not convertible to int32")
          (goShow a.value) = true ∧
        mentions ("value " ++ goShow a.value ++ " is not convertible to int32")
          "int32" = true)) ∧
    (lowerBytes a.type = strBytes "int64" →
      (∀ n, a.value = .goInt32 n → a.toFnArg impl = .ok (.i64 n)) ∧
      (∀ n, a.value = .goInt64 n → a.toFnArg impl = .ok (.i64 n)) ∧
      (∀ q, a.value = .goFloat32 q ∨ a.value = .goFloat64 q →
        (∃ m, a.toFnArg impl = .ok (.i64 m)) ∧
        (-2 ^ 63 ≤ ratTrunc q → ratTrunc q < 2 ^ 63 →
          a.toFnArg impl = .ok (.i64 (ratTrunc q)))) ∧
      (isNumericVal a.value = false →
        a.toFnArg impl =
          .error ("value " ++ goShow a.value ++ " is not convertible to int64") ∧
        mentions ("value " ++ goShow a.value ++ " is not convertible to int64")
          (goShow a.value) = true ∧
        mentions ("value " ++ goShow a.value ++ " is not convertible to int64")
          "int64" = true)) ∧
    (lowerBytes a.type ≠ strBytes "int32" → lowerBytes a.type ≠ strBytes "int64" →
      a.toFnArg impl = .error "arg type must be one of: int32, int64") := by
  refine ⟨fun h32 => ⟨?_, ?_, ?_, ?_⟩, fun h64 => ⟨?_, ?_, ?_, ?_⟩, fun hn32 hn64 => ?_⟩
  · intro n hv; simp [ArgAPI.toFnArg, h32, hv]
  · intro n hv; simp [ArgAPI.toFnArg, h32, hv]
  · intro q hv
    rcases hv with hv | hv <;>
    · refine ⟨⟨goFloatToInt32 impl q, by simp [ArgAPI.toFnArg, h32, hv]⟩, fun hlo hhi => ?_⟩
      have ht : goFloatToInt32 impl q = ratTrunc q := by
        unfold goFloatToInt32
        rw [if_pos (And.intro hlo hhi)]
      simp [ArgAPI.toFnArg, h32, hv, ht]
  · intro hnn
    have hmsg : a.toFnArg impl =
        .error ("value " ++ goShow a.value ++ " is not convertible to int32") := by
      cases hv : a.value <;> simp_all [ArgAPI.toFnArg, h32, isNumericVal]
    exact ⟨hmsg, mentions_embed "value " (goShow a.value) " is not convertible to int32",
      mentions_tag32 (goShow a.value)⟩
  · intro n hv
    have hne : strBytes "int64" ≠ strBytes "int32" := by decide
    simp [ArgAPI.toFnArg, h64, hne, hv]
  · intro n hv
    have hne : strBytes "int64" ≠ strBytes "int32" := by decide
    simp [ArgAPI.toFnArg, h64, hne, hv]
  · intro q hv
    have hne : strBytes "int64" ≠ strBytes "int32" := by decide
    rcases hv with hv | hv <;>
    · refine ⟨⟨goFloatToInt64 impl q, by simp [ArgAPI.toFnArg, h64, hne, hv]⟩, fun hlo hhi => ?_⟩
      have ht : goFloatToInt64 impl q = ratTrunc q := by
        unfold goFloatToInt64
        rw [if_pos (And.intro hlo hhi)]
      simp [ArgAPI.toFnArg, h64, hne, hv, ht]
  · intro hnn
    have hne : strBytes "int64" ≠ strBytes "int32" := by decide
    have hmsg : a.toFnArg impl =
        .error ("value " ++ goShow a.value ++ " is not convertible to int64") := by
      cases hv : a.value <;> simp_all [ArgAPI.toFnArg, h64, hne, isNumericVal]
    exact ⟨hmsg, mentions_embed "value " (goShow a.value) " is not convertible to int64",
      mentions_tag64 (goShow a.value)⟩
  · simp [ArgAPI.toFnArg, hn32, hn64]

/-- The rational seven halves, built without normalization so that it
evaluates inside the kernel. -/
def qSevenHalves : ℚ := ⟨7, 2, by decide, by decide⟩

/-- Witness for C4: the tag is matched case-insensitively and a float
value is truncated toward zero: 7/2 coerces to 3 under tag Int32. -/
theorem claim_C4_witness :
    ArgAPI.toFnArg implZ ⟨"Int32", .goFloat64 qSevenHalves⟩ = .ok (.i32 3) := by
  have h := ((claim_C4_toFnArg_coercion implZ
      ⟨"Int32", .goFloat64 qSevenHalves⟩).1 (by decide)).2.2.1 qSevenHalves (Or.inr rfl)
  have h2 := h.2 (by decide) (by decide)
  have h3 : ratTrunc qSevenHalves = 3 := by decide
  rwa [h3] at h2

/-- C4 counterexample: on an unrecognized tag the error is the fixed
message listing the accepted tags; it names neither the offending value
nor the declared tag, contradicting the claim as stated. -/
theorem claim_C4_counterexample :
    ArgAPI.toFnArg implZ ⟨"foo", .goInt32 5⟩ =
      .error "arg type must be one of: int32, int64" ∧
    mentions "arg type must be one of: int32, int64" "foo" = false ∧
    mentions "arg type must be one of: int32, int64" "5" = false :=
  ⟨rfl, by decide, by decide⟩

/-- C10 (as amended): under tag int32, out-of-range inputs are never
rejected with a range error: a 64-bit integer value always coerces to its
two's-complement reduction modulo 2^32 (which lies in the signed 32-bit
range), and a float value always coerces to some integer — but for a float
whose truncation is out of range that integer is the implementation-defined
result of the Go conversion, not necessarily the modular reduction. -/
theorem claim_C10_int32_narrowing (impl : GoImpl) (n : Int) (q : ℚ) :
    ArgAPI.toFnArg impl ⟨"int32", .goInt64 n⟩ = .ok (.i32 (wrap32 n)) ∧
    (-2 ^ 31 ≤ wrap32 n ∧ wrap32 n < 2 ^ 31) ∧
    (∃ m, ArgAPI.toFnArg impl ⟨"int32", .goFloat64 q⟩ = .ok (.i32 m)) ∧
    (∃ m, ArgAPI.toFnArg impl ⟨"int32", .goFloat32 q⟩ = .ok (.i32 m)) := by
  refine ⟨rfl, ?_, ⟨goFloatToInt32 impl q, rfl⟩, ⟨goFloatToInt32 impl q, rfl⟩⟩
  have h1 := Int.emod_nonneg (n + 2 ^ 31) (b := 2 ^ 32) (by norm_num)
  have h2 := Int.emod_lt_of_pos (n + 2 ^ 31) (b := 2 ^ 32) (by norm_num)
  unfold wrap32
  omega

/-- C10 counterexample: under the saturating oracle (a legal Go
implementation behavior), the float 10^10 under tag int32 coerces to
-2147483648, which is not its reduction modulo 2^32 (1410065408): the
claimed wrap-around does not hold for out-of-range floats. -/
theorem claim_C10_counterexample :
    ArgAPI.toFnArg implSat ⟨"int32", .goFloat64 (10000000000 : ℚ)⟩ =
      .ok (.i32 (-2147483648)) ∧
    wrap32 10000000000 = 1410065408 ∧
    (-2147483648 : Int) ≠ 1410065408 := by
  refine ⟨?_, by decide, by decide⟩
  have h : goFloatToInt32 implSat (10000000000 : ℚ) = -2147483648 := by
    unfold goFloatToInt32
    rw [if_neg (by decide)]
    rfl
  have hc : lowerBytes "int32" = strBytes "int32" := by decide
  simp [ArgAPI.toFnArg, hc, h]

/-- C5: boundary behaviour of the nonce check. For Invoke, once the
sender-key check has passed, a zero nonce is rejected with the
nonce-specific message, and a nonce of one passes validation whenever the
remaining fields are well-formed.  For CreateContract, with the two
preceding field checks passing, a zero nonce is rejected with the
nonce-specific message, and a nonce of one reaches key parsing. -/
theorem claim_C5_nonce_boundary :
    (∀ args : InvokeArgs, args.senderKey ≠ [] → args.senderNonce = 0 →
      args.validate = some "senderNonce must be at least 1") ∧
    (∀ args : InvokeArgs, args.senderKey ≠ [] → args.contractID ≠ idEmpty →
      args.function ≠ "" → args.senderNonce = 1 → args.validate = none) ∧
    (∀ (c : Collab) (impl : GoImpl) (s : VMState) (args : InvokeArgs),
      args.senderKey ≠ [] → args.senderNonce = 0 →
      (serviceInvoke c impl s args).result =
        .error "arguments failed validation: senderNonce must be at least 1") ∧
    (∀ (c : Collab) (s : VMState) (args : CreateContractArgs),
      args.senderKey ≠ [] → args.contract ≠ [] → args.senderNonce = 0 →
      (serviceCreateContract c s args).result =
        .error "argument senderNonce must be at least 1") ∧
    (∀ (c : Collab) (s : VMState) (args : CreateContractArgs),
      args.senderKey ≠ [] → args.contract ≠ [] → args.senderNonce = 1 →
      Event.toPrivateKeyCall args.senderKey ∈ (serviceCreateContract c s args).events) := by
  refine ⟨?_, ?_, ?_, ?_, ?_⟩
  · intro args h1 h2; simp [InvokeArgs.validate, h1, h2]
  · intro args h1 h2 h3 h4; simp [InvokeArgs.validate, h1, h2, h3, h4]
  · intro c impl s args h1 h2
    have hv : args.validate = some "senderNonce must be at least 1" := by
      simp [InvokeArgs.validate, h1, h2]
    simp [serviceInvoke, hv]
  · intro c s args h1 h2 h3; simp [serviceCreateContract, h1, h2, h3]
  · intro c s args h1 h2 h3
    simp only [serviceCreateContract, if_neg h1, if_neg h2]
    rw [if_neg (by simp [h3])]
    cases hk : c.toPrivateKey args.senderKey with
    | error e => simp
    | ok k =>
      cases k with
      | secp sk => cases htx : c.newCreateContractTx args.contract args.senderNonce sk <;> simp [htx]
      | other d => simp

/-- Witness for C5: a concrete Invoke request with nonce zero is rejected
with the nonce message, and the same request with nonce one validates. -/
theorem claim_C5_witness :
    InvokeArgs.validate ⟨1 :: List.replicate 31 0, "f", [9], 0, [], .goNil⟩ =
      some "senderNonce must be at least 1" ∧
    InvokeArgs.validate ⟨1 :: List.replicate 31 0, "f", [9], 1, [], .goNil⟩ = none :=
  ⟨claim_C5_nonce_boundary.1 ⟨1 :: List.replicate 31 0, "f", [9], 0, [], .goNil⟩
      (by decide) rfl,
    claim_C5_nonce_boundary.2.1 ⟨1 :: List.replicate 31 0, "f", [9], 1, [], .goNil⟩
      (by decide) (by decide) (by decide) rfl⟩

/-- C6: an Invoke request whose contractID is the zero-valued identifier
fails validation with the contract-ID message once the earlier field
checks pass, the state is unchanged, and no collaborator at all — in
particular not the key factory — is invoked. -/
theorem claim_C6_empty_contract_id (c : Collab) (impl : GoImpl) (s : VMState)
    (args : InvokeArgs) (h1 : args.senderKey ≠ []) (h2 : args.senderNonce ≠ 0)
    (h3 : args.contractID = idEmpty) :
    serviceInvoke c impl s args =
      ⟨.error "arguments failed validation: contractID not specified", s, []⟩ ∧
    ∀ b, Event.toPrivateKeyCall b ∉ (serviceInvoke c impl s args).events := by
  have hv : args.validate = some "contractID not specified" := by
    simp [InvokeArgs.validate, h1, h2, h3]
  have h : serviceInvoke c impl s args =
      ⟨.error "arguments failed validation: contractID not specified", s, []⟩ := by
    simp [serviceInvoke, hv]
  exact ⟨h, fun b => by simp [h]⟩

/-- Witness for C6: the theorem applied to a concrete request with the
zero identifier under the sample collaborators. -/
theorem claim_C6_witness :
    serviceInvoke collabW implZ ⟨[]⟩ ⟨idEmpty, "f", [9], 1, [], .goNil⟩ =
      ⟨.error "arguments failed validation: contractID not specified", ⟨[]⟩, []⟩ :=
  (claim_C6_empty_contract_id collabW implZ ⟨[]⟩ ⟨idEmpty, "f", [9], 1, [], .goNil⟩
    (by decide) (by decide) rfl).1

/-- C7: a CreateContract request with empty contract bytes fails
validation (with the contract message, or the sender-key message when
that earlier check already fails), the state is unchanged, and no
collaborator event occurs: neither the key factory nor the builder is
reached. -/
theorem claim_C7_empty_contract (c : Collab) (s : VMState) (args : CreateContractArgs)
    (h : args.contract = []) :
    ((serviceCreateContract c s args).result = .error "argument senderKey not given" ∨
      (serviceCreateContract c s args).result = .error "argument contract not given") ∧
    (serviceCreateContract c s args).state = s ∧
    (serviceCreateContract c s args).events = [] := by
  by_cases hk : args.senderKey = []
  · refine ⟨Or.inl ?_, ?_, ?_⟩ <;> simp [serviceCreateContract, hk]
  · refine ⟨Or.inr ?_, ?_, ?_⟩ <;> simp [serviceCreateContract, hk, h]

/-- Witness for C7: a concrete CreateContract request with empty contract
bytes fails with the contract message and produces no events. -/
theorem claim_C7_witness :
    ((serviceCreateContract collabW ⟨[]⟩ ⟨[], [9], 1⟩).result =
        .error "argument senderKey not given" ∨
      (serviceCreateContract collabW ⟨[]⟩ ⟨[], [9], 1⟩).result =
        .error "argument contract not given") ∧
    (serviceCreateContract collabW ⟨[]⟩ ⟨[], [9], 1⟩).state = ⟨[]⟩ ∧
    (serviceCreateContract collabW ⟨[]⟩ ⟨[], [9], 1⟩).events = [] :=
  claim_C7_empty_contract collabW ⟨[]⟩ ⟨[], [9], 1⟩ rfl

/-- Case analysis of one `Invoke` call: it either fails before any
collaborator call, fails during or right after key parsing, fails at the
build, or succeeds and admits exactly the built transaction. -/
theorem serviceInvoke_shape (c : Collab) (impl : GoImpl) (s : VMState) (args : InvokeArgs) :
    (∃ e, serviceInvoke c impl s args = ⟨.error e, s, []⟩) ∨
    (∃ e, serviceInvoke c impl s args =
      ⟨.error e, s, [.toPrivateKeyCall args.senderKey]⟩) ∨
    (∃ e, serviceInvoke c impl s args =
      ⟨.error e, s, [.toPrivateKeyCall args.senderKey, .newInvokeTxCall]⟩) ∨
    (∃ tx, serviceInvoke c impl s args =
      ⟨.ok tx.txID, admitTx s tx,
        [.toPrivateKeyCall args.senderKey, .newInvokeTxCall, .notifyBlockReady]⟩) := by
  cases hv : args.validate with
  | some e => exact Or.inl ⟨"arguments failed validation: " ++ e, by simp [serviceInvoke, hv]⟩
  | none =>
    cases hca : coerceArgs impl args.args with
    | error e => exact Or.inl ⟨e, by simp [serviceInvoke, hv, hca]⟩
    | ok fa =>
      cases hba : args.getByteArgs c with
      | error e => exact Or.inl ⟨"couldnt parse byteArgs: " ++ e, by simp [serviceInvoke, hv, hca, hba]⟩
      | ok ba =>
        cases hk : c.toPrivateKey args.senderKey with
        | error e => exact Or.inr (Or.inl ⟨"couldnt parse privateKey to a SECP256K1R private key: " ++ e, by simp [serviceInvoke, hv, hca, hba, hk]⟩)
        | ok k =>
          cases k with
          | other d => exact Or.inr (Or.inl ⟨"couldnt parse privateKey to a SECP256K1R private key: <nil>", by simp [serviceInvoke, hv, hca, hba, hk]⟩)
          | secp sk =>
            cases htx : c.newInvokeTx args.contractID args.function fa ba
                args.senderNonce sk with
            | error e =>
              exact Or.inr (Or.inr (Or.inl ⟨"couldnt create tx: " ++ e, by simp [serviceInvoke, hv, hca, hba, hk, htx]⟩))
            | ok tx =>
              exact Or.inr (Or.inr (Or.inr ⟨tx, by simp [serviceInvoke, hv, hca, hba, hk, htx]⟩))

/-- Case analysis of one `CreateContract` call, analogous to
`serviceInvoke_shape`. -/
theorem serviceCreateContract_shape (c : Collab) (s : VMState) (args : CreateContractArgs) :
    (∃ e, serviceCreateContract c s args = ⟨.error e, s, []⟩) ∨
    (∃ e, serviceCreateContract c s args =
      ⟨.error e, s, [.toPrivateKeyCall args.senderKey]⟩) ∨
    (∃ e, serviceCreateContract c s args =
      ⟨.error e, s, [.toPrivateKeyCall args.senderKey, .newCreateContractTxCall]⟩) ∨
    (∃ tx, serviceCreateContract c s args =
      ⟨.ok tx.txID, admitTx s tx,
        [.toPrivateKeyCall args.senderKey, .newCreateContractTxCall, .notifyBlockReady]⟩) := by
  by_cases h1 : args.senderKey = []
  · exact Or.inl ⟨"argument senderKey not given", by simp [serviceCreateContract, h1]⟩
  by_cases h2 : args.contract = []
  · exact Or.inl ⟨"argument contract not given", by simp [serviceCreateContract, h1, h2]⟩
  by_cases h3 : args.senderNonce = 0
  · exact Or.inl ⟨"argument senderNonce must be at least 1", by simp [serviceCreateContract, h1, h2, h3]⟩
  cases hk : c.toPrivateKey args.senderKey with
  | error e => exact Or.inr (Or.inl ⟨"couldnt parse senderKey to a SECP256K1R private key: " ++ e, by simp [serviceCreateContract, h1, h2, h3, hk]⟩)
  | ok k =>
    cases k with
    | other d => exact Or.inr (Or.inl ⟨"couldnt parse senderKey to a SECP256K1R private key: <nil>", by simp [serviceCreateContract, h1, h2, h3, hk]⟩)
    | secp sk =>
      cases htx : c.newCreateContractTx args.contract args.senderNonce sk with
      | error e =>
        exact Or.inr (Or.inr (Or.inl ⟨"couldnt create tx: " ++ e, by simp [serviceCreateContract, h1, h2, h3, hk, htx]⟩))
      | ok tx =>
        exact Or.inr (Or.inr (Or.inr ⟨tx, by simp [serviceCreateContract, h1, h2, h3, hk, htx]⟩))

/-- C3: admission happens only after every prior step has succeeded.  If
an Invoke or CreateContract call returns an error, the mempool (the whole
state) is exactly as before and the scheduler is not notified; if it
returns an identifier, exactly one transaction was appended and it carries
that identifier. -/
theorem claim_C3_no_partial_admission (c : Collab) (impl : GoImpl) (s : VMState) :
    (∀ (args : InvokeArgs) e, (serviceInvoke c impl s args).result = .error e →
      (serviceInvoke c impl s args).state = s ∧
      Event.notifyBlockReady ∉ (serviceInvoke c impl s args).events) ∧
    (∀ (args : InvokeArgs) i, (serviceInvoke c impl s args).result = .ok i →
      ∃ tx, (serviceInvoke c impl s args).state.mempool = s.mempool ++ [tx] ∧
        i = tx.txID ∧ Event.notifyBlockReady ∈ (serviceInvoke c impl s args).events) ∧
    (∀ (args : CreateContractArgs) e, (serviceCreateContract c s args).result = .error e →
      (serviceCreateContract c s args).state = s ∧
      Event.notifyBlockReady ∉ (serviceCreateContract c s args).events) ∧
    (∀ (args : CreateContractArgs) i, (serviceCreateContract c s args).result = .ok i →
      ∃ tx, (serviceCreateContract c s args).state.mempool = s.mempool ++ [tx] ∧
        i = tx.txID ∧ Event.notifyBlockReady ∈ (serviceCreateContract c s args).events) := by
  refine ⟨?_, ?_, ?_, ?_⟩
  · intro args e h
    rcases serviceInvoke_shape c impl s args with ⟨e', hs⟩ | ⟨e', hs⟩ | ⟨e', hs⟩ | ⟨tx, hs⟩ <;>
      rw [hs] at h ⊢ <;> simp_all
  · intro args i h
    rcases serviceInvoke_shape c impl s args with ⟨e', hs⟩ | ⟨e', hs⟩ | ⟨e', hs⟩ | ⟨tx, hs⟩
    · rw [hs] at h; exact absurd h (by simp)
    · rw [hs] at h; exact absurd h (by simp)
    · rw [hs] at h; exact absurd h (by simp)
    · rw [hs] at h
      refine ⟨tx, by rw [hs]; rfl, ?_, by rw [hs]; simp⟩
      have h2 : tx.txID = i := by simpa using h
      exact h2.symm
  · intro args e h
    rcases serviceCreateContract_shape c s args with ⟨e', hs⟩ | ⟨e', hs⟩ | ⟨e', hs⟩ | ⟨tx, hs⟩ <;>
      rw [hs] at h ⊢ <;> simp_all
  · intro args i h
    rcases serviceCreateContract_shape c s args with ⟨e', hs⟩ | ⟨e', hs⟩ | ⟨e', hs⟩ | ⟨tx, hs⟩
    · rw [hs] at h; exact absurd h (by simp)
    · rw [hs] at h; exact absurd h (by simp)
    · rw [hs] at h; exact absurd h (by simp)
    · rw [hs] at h
      refine ⟨tx, by rw [hs]; rfl, ?_, by rw [hs]; simp⟩
      have h2 : tx.txID = i := by simpa using h
      exact h2.symm

/-- Witness for C3: a failing concrete Invoke call (bad byte arguments)
leaves the state unchanged, and a succeeding one appends one transaction. -/
theorem claim_C3_witness :
    (serviceInvoke collabW implZ ⟨[]⟩
        ⟨1 :: List.replicate 31 0, "f", [9], 1, [], .goString "!!"⟩).state = ⟨[]⟩ ∧
    ∃ tx, (serviceInvoke collabW implZ ⟨[]⟩
        ⟨1 :: List.replicate 31 0, "f", [9], 1, [], .goNil⟩).state.mempool = [] ++ [tx] :=
  ⟨((claim_C3_no_partial_admission collabW implZ ⟨[]⟩).1
      ⟨1 :: List.replicate 31 0, "f", [9], 1, [], .goString "!!"⟩
      "couldnt parse byteArgs: expected byteArgs to be JSON or base58 formatted bytes but was neither"
      rfl).1,
    match (claim_C3_no_partial_admission collabW implZ ⟨[]⟩).2.1
      ⟨1 :: List.replicate 31 0, "f", [9], 1, [], .goNil⟩
      (1 :: List.replicate 31 0 ++ [1]) rfl with
    | ⟨tx, hmem, _, _⟩ => ⟨tx, hmem⟩⟩

/-- C8: once a request reaches key parsing, a key factory rejection, or a
returned key that is not the SECP256K1R concrete scheme, is fatal: both
Invoke and CreateContract return the key-parse error and leave the state
unchanged — the type mismatch after successful parsing is never ignored. -/
theorem claim_C8_key_parse_failure (c : Collab) (impl : GoImpl) (s : VMState) :
    (∀ (args : InvokeArgs), args.validate = none →
      (∃ fa, coerceArgs impl args.args = .ok fa) →
      (∃ ba, args.getByteArgs c = .ok ba) →
      (∀ e, c.toPrivateKey args.senderKey = .error e →
        serviceInvoke c impl s args =
          ⟨.error ("couldnt parse privateKey to a SECP256K1R private key: " ++ e), s,
            [.toPrivateKeyCall args.senderKey]⟩) ∧
      (∀ d, c.toPrivateKey args.senderKey = .ok (.other d) →
        serviceInvoke c impl s args =
          ⟨.error "couldnt parse privateKey to a SECP256K1R private key: <nil>", s,
            [.toPrivateKeyCall args.senderKey]⟩)) ∧
    (∀ (args : CreateContractArgs), args.senderKey ≠ [] → args.contract ≠ [] →
      args.senderNonce ≠ 0 →
      (∀ e, c.toPrivateKey args.senderKey = .error e →
        serviceCreateContract c s args =
          ⟨.error ("couldnt parse senderKey to a SECP256K1R private key: " ++ e), s,
            [.toPrivateKeyCall args.senderKey]⟩) ∧
      (∀ d, c.toPrivateKey args.senderKey = .ok (.other d) →
        serviceCreateContract c s args =
          ⟨.error "couldnt parse senderKey to a SECP256K1R private key: <nil>", s,
            [.toPrivateKeyCall args.senderKey]⟩)) := by
  constructor
  · rintro args hv ⟨fa, hca⟩ ⟨ba, hba⟩
    constructor
    · intro e hk; simp [serviceInvoke, hv, hca, hba, hk]
    · intro d hk; simp [serviceInvoke, hv, hca, hba, hk]
  · intro args h1 h2 h3
    constructor
    · intro e hk; simp [serviceCreateContract, h1, h2, h3, hk]
    · intro d hk; simp [serviceCreateContract, h1, h2, h3, hk]

/-- A collaborator assignment whose key factory rejects every byte
sequence. -/
def collabBadKey : Collab :=
  { collabW with toPrivateKey := fun _ => .error "not a key" }

/-- A collaborator assignment whose key factory returns a key of a
different concrete scheme. -/
def collabOtherKey : Collab :=
  { collabW with toPrivateKey := fun _ => .ok (.other "ed25519") }

/-- Witness for C8: a concrete Invoke request fails with the key-parse
error both when the factory rejects the bytes and when it returns a key of
another scheme. -/
theorem claim_C8_witness :
    serviceInvoke collabBadKey implZ ⟨[]⟩
      ⟨1 :: List.replicate 31 0, "f", [9], 1, [], .goNil⟩ =
      ⟨.error "couldnt parse privateKey to a SECP256K1R private key: not a key", ⟨[]⟩,
        [.toPrivateKeyCall [9]]⟩ ∧
    serviceInvoke collabOtherKey implZ ⟨[]⟩
      ⟨1 :: List.replicate 31 0, "f", [9], 1, [], .goNil⟩ =
      ⟨.error "couldnt parse privateKey to a SECP256K1R private key: <nil>", ⟨[]⟩,
        [.toPrivateKeyCall [9]]⟩ :=
  ⟨((claim_C8_key_parse_failure collabBadKey implZ ⟨[]⟩).1
      ⟨1 :: List.replicate 31 0, "f", [9], 1, [], .goNil⟩
      rfl ⟨[], rfl⟩ ⟨[], rfl⟩).1 "not a key" rfl,
    ((claim_C8_key_parse_failure collabOtherKey implZ ⟨[]⟩).1
      ⟨1 :: List.replicate 31 0, "f", [9], 1, [], .goNil⟩
      rfl ⟨[], rfl⟩ ⟨[], rfl⟩).2 "ed25519" rfl⟩

/-- Admissions compose: running a sequence of atomic admissions appends
exactly that sequence to the mempool. -/
theorem runAdmits_mempool (order : List Tx) (s : VMState) :
    (runAdmits s order).mempool = s.mempool ++ order := by
  induction order generalizing s with
  | nil => simp [runAdmits]
  | cons t rest ih =>
    show (runAdmits (admitTx s t) rest).mempool = _
    rw [ih (admitTx s t)]
    simp [admitTx]

/-- C2: serialized concurrent admission.  For any N transactions admitted
by concurrent requests, whatever completion order the interleaving
produces, the mempool afterwards holds exactly the prior entries followed
by the N new ones in that completion order: its length grows by exactly N,
and its contents are exactly the old contents plus the N transactions
(no loss, no duplication, no partial write). -/
theorem claim_C2_concurrent_admission (init : VMState) (txs order : List Tx)
    (hperm : order.Perm txs) :
    (runAdmits init order).mempool = init.mempool ++ order ∧
    (runAdmits init order).mempool.length = init.mempool.length + txs.length ∧
    (runAdmits init order).mempool.Perm (init.mempool ++ txs) := by
  refine ⟨runAdmits_mempool order init, ?_, ?_⟩
  · rw [runAdmits_mempool order init]
    simp [hperm.length_eq]
  · rw [runAdmits_mempool order init]
    exact List.Perm.append (List.Perm.refl init.mempool) hperm

/-- Witness for C2: two transactions admitted in reversed completion
order still yield a mempool of exactly the two entries. -/
theorem claim_C2_witness :
    (runAdmits ⟨[]⟩ [⟨[2]⟩, ⟨[1]⟩]).mempool = ([] : List Tx) ++ [⟨[2]⟩, ⟨[1]⟩] ∧
    (runAdmits ⟨[]⟩ [⟨[2]⟩, ⟨[1]⟩]).mempool.length =
      ([] : List Tx).length + ([⟨[1]⟩, ⟨[2]⟩] : List Tx).length ∧
    (runAdmits ⟨[]⟩ [⟨[2]⟩, ⟨[1]⟩]).mempool.Perm (([] : List Tx) ++ [⟨[1]⟩, ⟨[2]⟩]) :=
  claim_C2_concurrent_admission ⟨[]⟩ [⟨[1]⟩, ⟨[2]⟩] [⟨[2]⟩, ⟨[1]⟩] (by decide)

/-- Lookup in the store built from admitted transactions is search by
transaction identifier. -/
theorem storeGet_admitted (txs : List Tx) (id : List Nat) :
    storeGet (storeOfAdmitted txs) id = txs.find? (fun t => t.txID = id) := by
  have h1 : ((fun (p : List Nat × Tx) => decide (p.1 = id)) ∘ fun t => (t.txID, t)) =
      (fun t : Tx => decide (t.txID = id)) := rfl
  have h2 : (Prod.snd ∘ fun (t : Tx) => (t.txID, t)) = fun (t : Tx) => t := rfl
  simp only [storeGet, storeOfAdmitted, List.find?_map, Option.map_map, h1, h2]
  simp

/-- C9: `GetTx` against the store of admitted transactions.  An identifier
that was never admitted fails with the not-found message; an admitted
identifier returns a receipt whose identifier is exactly the queried one. -/
theorem claim_C9_getTx_lookup (txs : List Tx) (id : List Nat) :
    (id ∉ txs.map Tx.txID →
      serviceGetTx (storeOfAdmitted txs) id =
        .error ("couldnt find tx with ID " ++ idShow id)) ∧
    (id ∈ txs.map Tx.txID →
      ∃ t, serviceGetTx (storeOfAdmitted txs) id = .ok t ∧ t.txID = id) := by
  constructor
  · intro hnot
    have hf : txs.find? (fun t => decide (t.txID = id)) = none := by
      rw [List.find?_eq_none]
      intro t ht
      simp only [decide_eq_true_eq]
      intro heq
      exact hnot (heq ▸ List.mem_map_of_mem Tx.txID ht)
    simp [serviceGetTx, storeGet_admitted, hf]
  · intro hmem
    obtain ⟨t, ht, heq⟩ := List.mem_map.mp hmem
    have hsome : (txs.find? (fun t => decide (t.txID = id))).isSome := by
      rw [List.find?_isSome]
      exact ⟨t, ht, by simp [heq]⟩
    obtain ⟨u, hfind⟩ := Option.isSome_iff_exists.mp hsome
    refine ⟨u, ?_, by simpa using List.find?_some hfind⟩
    simp [serviceGetTx, storeGet_admitted, hfind]

/-- Witness for C9: with one admitted transaction of identifier [1, 2],
looking up [3] is a not-found error and looking up [1, 2] returns the
receipt with exactly that identifier. -/
theorem claim_C9_witness :
    serviceGetTx (storeOfAdmitted [⟨[1, 2]⟩]) [3] =
      .error ("couldnt find tx with ID " ++ idShow [3]) ∧
    ∃ t, serviceGetTx (storeOfAdmitted [⟨[1, 2]⟩]) [1, 2] = .ok t ∧ t.txID = [1, 2] :=
  ⟨(claim_C9_getTx_lookup [⟨[1, 2]⟩] [3]).1 (by decide),
    (claim_C9_getTx_lookup [⟨[1, 2]⟩] [1, 2]).2 (by decide)⟩
